import Mathlib

/-
Formal model of the bulk-data migration engine found in the scripts of the
socrata-leads repository, together with theorems settling the specification
claims about it.

Strings are modelled as `List Char`.  Database values (all columns of the
`raw` table) are modelled as optional strings, `none` standing for SQL NULL.
The external Python `json` library and the SQLite query engine are modelled
executably and faithfully for the constructs the scripts use.
-/

/-- The single-quote character (code 39), written via `Char.ofNat`. -/
def sqch : Char := Char.ofNat 39

/-- Model of the Python expression `str.replace(chr(39), chr(39) + chr(39))`
used in `escape_sql_string` of `scripts/mcp-auto-execute.py`: every
single-quote character is replaced by two single-quote characters and every
other character is kept unchanged. -/
def pyReplaceQuote : List Char → List Char
  | [] => []
  | c :: cs => if c = sqch then sqch :: sqch :: pyReplaceQuote cs else c :: pyReplaceQuote cs

/-- Model of `escape_sql_string` from `scripts/mcp-auto-execute.py`:
`None` becomes the literal `NULL`; any other value becomes the doubled-quote
body wrapped in single quotes. -/
def escape_sql_string : Option (List Char) → List Char
  | none => "NULL".data
  | some s => sqch :: (pyReplaceQuote s ++ [sqch])

/-- Decoder for quoted SQL literals: collapse each doubled quote in the body
back to a single quote.  This is the inverse direction used to state the
escaping round-trip property of the spec. -/
def collapseQuotes : List Char → List Char
  | [] => []
  | c1 :: rest =>
    match rest with
    | [] => [c1]
    | c2 :: cs =>
      if c1 = sqch then
        if c2 = sqch then sqch :: collapseQuotes cs else sqch :: collapseQuotes (c2 :: cs)
      else c1 :: collapseQuotes (c2 :: cs)

/-- Full decoder for a quoted SQL literal: check and strip the outer quotes,
then collapse doubled quotes in the body. -/
def decodeSqlLiteral (l : List Char) : Option (List Char) :=
  match l with
  | [] => none
  | c :: rest =>
    if c = sqch then
      match rest.getLast? with
      | some c2 => if c2 = sqch then some (collapseQuotes rest.dropLast) else none
      | none => none
    else none

theorem pyReplaceQuote_eq_nil {s : List Char} (h : pyReplaceQuote s = []) : s = [] := by
  cases s with
  | nil => rfl
  | cons c cs =>
    simp only [pyReplaceQuote] at h
    by_cases hc : c = sqch <;> simp [hc] at h

theorem collapseQuotes_pyReplaceQuote (s : List Char) :
    collapseQuotes (pyReplaceQuote s) = s := by
  induction s with
  | nil => rfl
  | cons c cs ih =>
    by_cases hc : c = sqch
    · subst hc
      simp only [pyReplaceQuote, if_pos rfl, collapseQuotes, if_pos rfl]
      exact congrArg (sqch :: ·) ih
    · simp only [pyReplaceQuote, if_neg hc]
      cases hcs : pyReplaceQuote cs with
      | nil =>
        have : cs = [] := pyReplaceQuote_eq_nil hcs
        subst this
        rfl
      | cons d ds =>
        simp only [collapseQuotes, if_neg hc]
        rw [← hcs, ih]

theorem pyReplaceQuote_count (s : List Char) :
    (pyReplaceQuote s).count sqch = 2 * s.count sqch := by
  induction s with
  | nil => rfl
  | cons c cs ih =>
    by_cases hc : c = sqch
    · subst hc
      simp [pyReplaceQuote, List.count_cons, ih]
      omega
    · simp [pyReplaceQuote, hc, List.count_cons, ih]

theorem pyReplaceQuote_filter (s : List Char) :
    (pyReplaceQuote s).filter (fun c => c != sqch) = s.filter (fun c => c != sqch) := by
  induction s with
  | nil => rfl
  | cons c cs ih =>
    by_cases hc : c = sqch
    · subst hc
      simp [pyReplaceQuote, List.filter, ih]
    · simp [pyReplaceQuote, List.filter_cons, bne_iff_ne, hc, ih]

theorem decode_escape_sql_string (s : List Char) :
    decodeSqlLiteral (escape_sql_string (some s)) = some s := by
  simp [escape_sql_string, decodeSqlLiteral, collapseQuotes_pyReplaceQuote]

/-
JSON model.  The scripts call the Python `json` library
(`json.loads` / `json.dumps`).  The model below embeds the behaviour of that
library for the constructs the migration uses: values are null, booleans,
numbers, strings, arrays and objects; `json_dumps` uses the default Python
separators (lists and objects joined with a comma and a space, keys followed
by a colon and a space) and escapes quotes, backslashes and control
characters.  Number lexemes are kept verbatim rather than re-normalised
through floating point, and astral-plane code points are not modelled.
-/

inductive Json where
  | jnull : Json
  | jbool : Bool → Json
  | jnum : List Char → Json
  | jstr : List Char → Json
  | jarr : List Json → Json
  | jobj : List (List Char × Json) → Json

/-- JSON insignificant whitespace skipper. -/
def skipWs : List Char → List Char
  | [] => []
  | c :: cs => if c = ' ' ∨ c = '\t' ∨ c = '\n' ∨ c = '\r' then skipWs cs else c :: cs

/-- Value of a hexadecimal digit, if the character is one. -/
def hexVal (c : Char) : Option Nat :=
  if '0' ≤ c ∧ c ≤ '9' then some (c.toNat - 48)
  else if 'a' ≤ c ∧ c ≤ 'f' then some (c.toNat - 87)
  else if 'A' ≤ c ∧ c ≤ 'F' then some (c.toNat - 55)
  else none

/-- Parse the body of a JSON string after the opening double quote, returning
the decoded characters and the remaining input. -/
def parseStringBody : List Char → Option (List Char × List Char)
  | [] => none
  | '"' :: cs => some ([], cs)
  | '\\' :: 'u' :: h1 :: h2 :: h3 :: h4 :: cs =>
    match hexVal h1, hexVal h2, hexVal h3, hexVal h4 with
    | some n1, some n2, some n3, some n4 =>
      (parseStringBody cs).map fun p =>
        (Char.ofNat (n1 * 4096 + n2 * 256 + n3 * 16 + n4) :: p.1, p.2)
    | _, _, _, _ => none
  | '\\' :: e :: cs =>
    if e = '"' then (parseStringBody cs).map fun p => ('"' :: p.1, p.2)
    else if e = '\\' then (parseStringBody cs).map fun p => ('\\' :: p.1, p.2)
    else if e = '/' then (parseStringBody cs).map fun p => ('/' :: p.1, p.2)
    else if e = 'b' then (parseStringBody cs).map fun p => ('\x08' :: p.1, p.2)
    else if e = 'f' then (parseStringBody cs).map fun p => ('\x0c' :: p.1, p.2)
    else if e = 'n' then (parseStringBody cs).map fun p => ('\n' :: p.1, p.2)
    else if e = 'r' then (parseStringBody cs).map fun p => ('\r' :: p.1, p.2)
    else if e = 't' then (parseStringBody cs).map fun p => ('\t' :: p.1, p.2)
    else none
  | c :: cs => (parseStringBody cs).map fun p => (c :: p.1, p.2)

/-- Greedily take decimal digits from the front of the input. -/
def takeDigits : List Char → List Char × List Char
  | [] => ([], [])
  | c :: cs =>
    if '0' ≤ c ∧ c ≤ '9' then
      let p := takeDigits cs
      (c :: p.1, p.2)
    else ([], c :: cs)

/-- Parse an optional fractional part `.digits`. -/
def parseFrac : List Char → Option (List Char × List Char)
  | '.' :: r =>
    match takeDigits r with
    | ([], _) => none
    | (fs, rr) => some ('.' :: fs, rr)
  | s => some ([], s)

/-- Parse an optional exponent part `e[+-]digits`. -/
def parseExp : List Char → Option (List Char × List Char)
  | [] => some ([], [])
  | c :: r =>
    if c = 'e' ∨ c = 'E' then
      let p : List Char × List Char :=
        match r with
        | '+' :: rr => (['+'], rr)
        | '-' :: rr => (['-'], rr)
        | _ => ([], r)
      match takeDigits p.2 with
      | ([], _) => none
      | (ds, rr) => some (c :: (p.1 ++ ds), rr)
    else some ([], c :: r)

/-- Parse an unsigned number lexeme `digits[.digits][e[+-]digits]`. -/
def parseNumCore (s : List Char) : Option (List Char × List Char) :=
  match takeDigits s with
  | ([], _) => none
  | (ds, r1) =>
    match parseFrac r1 with
    | none => none
    | some (f, r2) =>
      match parseExp r2 with
      | none => none
      | some (e, r3) => some (ds ++ f ++ e, r3)

/-- Parse a possibly negative JSON number lexeme. -/
def parseNum : List Char → Option (List Char × List Char)
  | '-' :: r => (parseNumCore r).map fun p => ('-' :: p.1, p.2)
  | s => parseNumCore s

mutual

/-- Fuel-indexed parser for one JSON value, mirroring `json.loads`. -/
def parseVal : Nat → List Char → Option (Json × List Char)
  | 0, _ => none
  | fuel + 1, s =>
    match skipWs s with
    | 'n' :: 'u' :: 'l' :: 'l' :: rest => some (.jnull, rest)
    | 't' :: 'r' :: 'u' :: 'e' :: rest => some (.jbool true, rest)
    | 'f' :: 'a' :: 'l' :: 's' :: 'e' :: rest => some (.jbool false, rest)
    | '"' :: rest => (parseStringBody rest).map fun p => (.jstr p.1, p.2)
    | '[' :: rest => (parseElems fuel rest).map fun p => (.jarr p.1, p.2)
    | '\x7b' :: rest => (parseMembers fuel rest).map fun p => (.jobj p.1, p.2)
    | rest => (parseNum rest).map fun p => (.jnum p.1, p.2)

/-- Parse array elements after the opening bracket. -/
def parseElems : Nat → List Char → Option (List Json × List Char)
  | 0, _ => none
  | fuel + 1, s =>
    match skipWs s with
    | ']' :: r => some ([], r)
    | s1 =>
      match parseVal fuel s1 with
      | none => none
      | some (v, r1) =>
        match skipWs r1 with
        | ',' :: r2 =>
          match parseElems fuel r2 with
          | some (vs, r3) => some (v :: vs, r3)
          | none => none
        | ']' :: r2 => some ([v], r2)
        | _ => none

/-- Parse object members after the opening brace. -/
def parseMembers : Nat → List Char → Option (List (List Char × Json) × List Char)
  | 0, _ => none
  | fuel + 1, s =>
    match skipWs s with
    | '\x7d' :: r => some ([], r)
    | '"' :: r =>
      match parseStringBody r with
      | none => none
      | some (k, r1) =>
        match skipWs r1 with
        | ':' :: r2 =>
          match parseVal fuel r2 with
          | none => none
          | some (v, r3) =>
            match skipWs r3 with
            | ',' :: r4 =>
              match parseMembers fuel r4 with
              | some (ms, r5) => some ((k, v) :: ms, r5)
              | none => none
            | '\x7d' :: r4 => some ([(k, v)], r4)
            | _ => none
        | _ => none
    | _ => none

end

/-- Model of `json.loads`: parse one value and require only whitespace after
it; any other input is a parse failure (`none`). -/
def json_loads (s : List Char) : Option Json :=
  match parseVal (2 * s.length + 4) s with
  | some (v, rest) => if skipWs rest = [] then some v else none
  | none => none

/-- Lower-case hexadecimal digit for a value below 16. -/
def hexDigit (n : Nat) : Char :=
  if n < 10 then Char.ofNat (48 + n) else Char.ofNat (87 + n)

/-- Four-digit hexadecimal rendering used by JSON `\u` escapes. -/
def hex4 (n : Nat) : List Char :=
  [hexDigit (n / 4096 % 16), hexDigit (n / 256 % 16), hexDigit (n / 16 % 16), hexDigit (n % 16)]

/-- Escape one character the way `json.dumps` renders string contents. -/
def jsonEscapeChar (c : Char) : List Char :=
  if c = '"' then ['\\', '"']
  else if c = '\\' then ['\\', '\\']
  else if c = '\n' then ['\\', 'n']
  else if c = '\t' then ['\\', 't']
  else if c = '\r' then ['\\', 'r']
  else if c = '\x08' then ['\\', 'b']
  else if c = '\x0c' then ['\\', 'f']
  else if c.toNat < 32 ∨ 126 < c.toNat then '\\' :: 'u' :: hex4 c.toNat
  else [c]

/-- Escape a whole string body for `json.dumps`. -/
def escJsonString : List Char → List Char
  | [] => []
  | c :: cs => jsonEscapeChar c ++ escJsonString cs

mutual

/-- Model of `json.dumps` with the default separators. -/
def json_dumps : Json → List Char
  | .jnull => "null".data
  | .jbool true => "true".data
  | .jbool false => "false".data
  | .jnum l => l
  | .jstr s => '"' :: (escJsonString s ++ ['"'])
  | .jarr vs => '[' :: (dumpsElems vs ++ [']'])
  | .jobj ms => '\x7b' :: (dumpsMembers ms ++ ['\x7d'])

/-- Comma-and-space separated rendering of array elements. -/
def dumpsElems : List Json → List Char
  | [] => []
  | v :: [] => json_dumps v
  | v :: v2 :: vs => json_dumps v ++ ',' :: ' ' :: dumpsElems (v2 :: vs)

/-- Comma-and-space separated rendering of object members. -/
def dumpsMembers : List (List Char × Json) → List Char
  | [] => []
  | m :: [] => '"' :: (escJsonString m.1 ++ '"' :: ':' :: ' ' :: json_dumps m.2)
  | m :: m2 :: ms =>
    ('"' :: (escJsonString m.1 ++ '"' :: ':' :: ' ' :: json_dumps m.2)) ++
      ',' :: ' ' :: dumpsMembers (m2 :: ms)

end

/-- Model of `format_json_field` from `scripts/mcp-auto-execute.py`: `None`
becomes the `NULL` literal; otherwise the stored text is parsed as JSON and,
on success, re-serialised, quote-doubled, quoted and tagged with the `jsonb`
cast; on a parse failure the quoted empty-object literal is produced. -/
def format_json_field : Option (List Char) → List Char
  | none => "NULL".data
  | some s =>
    match json_loads s with
    | some v => sqch :: (pyReplaceQuote (json_dumps v) ++ sqch :: ':' :: ':' :: "jsonb".data)
    | none => [sqch, '\x7b', '\x7d', sqch]

/-
Row Source model.  A row of the `raw` table carries the six selected columns
`id, city, dataset, watermark, payload, inserted_at`, each an optional text
value (`none` is SQL NULL).  A table is the list of its rows in storage
order; a `SELECT ... ORDER BY id LIMIT b OFFSET k` is modelled as sorting by
the `id` column (NULLs first, then bytewise text order, as SQLite orders
text) followed by drop and take, while a `SELECT` without `ORDER BY` keeps
storage order.
-/

structure Row where
  id : Option (List Char)
  city : Option (List Char)
  dataset : Option (List Char)
  watermark : Option (List Char)
  payload : Option (List Char)
  inserted_at : Option (List Char)
deriving DecidableEq

/-- Bytewise (code-point) lexicographic order on text, as SQLite compares
text under the default BINARY collation. -/
def strLeB : List Char → List Char → Bool
  | [], _ => true
  | _ :: _, [] => false
  | a :: as, b :: bs =>
    if a.toNat < b.toNat then true
    else if b.toNat < a.toNat then false
    else strLeB as bs

/-- Order on optional text values: SQL NULL sorts before any text. -/
def idLeB : Option (List Char) → Option (List Char) → Bool
  | none, _ => true
  | some _, none => false
  | some a, some b => strLeB a b

/-- Comparison of two rows by their `id` column. -/
def rowLe (a b : Row) : Bool := idLeB a.id b.id

/-- Insert a row into a list sorted by `rowLe`. -/
def insertById (r : Row) : List Row → List Row
  | [] => [r]
  | x :: xs => if rowLe r x then r :: x :: xs else x :: insertById r xs

/-- Sort a table by the `id` column: the model of `ORDER BY id`. -/
def sortById : List Row → List Row
  | [] => []
  | x :: xs => insertById x (sortById xs)

/-- Model of the page fetch in `generate_and_execute_batch`
(`scripts/mcp-auto-execute.py`) and `generate_turbo_batch`
(`scripts/auto-mcp-turbo.py`):
`SELECT id, city, dataset, watermark, payload, inserted_at FROM raw
ORDER BY id LIMIT batch_size OFFSET start_offset`. -/
def fetchPage_mcp (tbl : List Row) (limit offset : Nat) : List Row :=
  ((sortById tbl).drop offset).take limit

/-- Model of the page fetch in `migrate_raw_batch` (`scripts/auto-migrate.py`)
and in `OptimizedMigrator.generate_batch_insert`
(`scripts/optimized-migrate.py`): `SELECT ... FROM raw LIMIT ? OFFSET ?`
with no `ORDER BY`, so rows come back in storage order. -/
def fetchPage_noorder (tbl : List Row) (limit offset : Nat) : List Row :=
  (tbl.drop offset).take limit

/-
Batch Builder model.
-/

/-- Join SQL fragments with a bare comma, as `",".join(values_list)` does. -/
def joinComma : List (List Char) → List Char
  | [] => []
  | x :: [] => x
  | x :: y :: rest => x ++ ',' :: joinComma (y :: rest)

/-- One `(...)` values tuple of `generate_and_execute_batch` in
`scripts/mcp-auto-execute.py`: all six columns go through
`escape_sql_string` except the payload, which goes through
`format_json_field`. -/
def mcpRowTuple (r : Row) : List Char :=
  '(' :: (escape_sql_string r.id ++ ", ".data ++ escape_sql_string r.city ++ ", ".data ++
    escape_sql_string r.dataset ++ ", ".data ++ escape_sql_string r.watermark ++ ", ".data ++
    format_json_field r.payload ++ ", ".data ++ escape_sql_string r.inserted_at ++ [')'])

/-- Python `str(...)` applied to an optional text value: `None` prints as
the four letters `None`. -/
def pyStr : Option (List Char) → List Char
  | none => "None".data
  | some s => s

/-- One values tuple of `OptimizedMigrator.generate_batch_insert` in
`scripts/optimized-migrate.py`; unlike the mcp variant, `inserted_at` is
first passed through `str(...)`. -/
def optRowTuple (r : Row) : List Char :=
  '(' :: (escape_sql_string r.id ++ ", ".data ++ escape_sql_string r.city ++ ", ".data ++
    escape_sql_string r.dataset ++ ", ".data ++ escape_sql_string r.watermark ++ ", ".data ++
    format_json_field r.payload ++ ", ".data ++
    escape_sql_string (some (pyStr r.inserted_at)) ++ [')'])

/-- The statement text built by `generate_and_execute_batch` in
`scripts/mcp-auto-execute.py` for a non-empty page:
`INSERT INTO raw (...) VALUES <tuples>;` with no transaction markers and no
conflict clause. -/
def mcp_insert_sql (rows : List Row) : List Char :=
  "INSERT INTO raw (id, city, dataset, watermark, payload, inserted_at) VALUES ".data ++
    joinComma (rows.map mcpRowTuple) ++ [';']

/-- The statement text built by `OptimizedMigrator.generate_batch_insert`
(table `raw`) in `scripts/optimized-migrate.py` for a non-empty page: the
multi-row insert framed by `BEGIN;` and `COMMIT;` lines. -/
def optimized_insert_sql (rows : List Row) : List Char :=
  '\n' :: ("BEGIN;\n".data ++
    "INSERT INTO raw (id, city, dataset, watermark, payload, inserted_at) VALUES\n".data ++
    joinComma (rows.map optRowTuple) ++ ";\nCOMMIT;".data)

/-- Envelope produced by `generate_and_execute_batch` for a page of rows:
`None` when the page is empty (the script returns early), the insert
statement otherwise. -/
def mcp_envelope (rows : List Row) : Option (List Char) :=
  if rows.isEmpty then none else some (mcp_insert_sql rows)

/-- Envelope produced by `OptimizedMigrator.generate_batch_insert` for a
page of rows (`None, 0` is returned for an empty page). -/
def optimized_envelope (rows : List Row) : Option (List Char) :=
  if rows.isEmpty then none else some (optimized_insert_sql rows)

/-- Substring test: does `pat` occur contiguously inside the second list? -/
def occursIn (pat : List Char) : List Char → Bool
  | [] => pat.isEmpty
  | c :: cs => pat.isPrefixOf (c :: cs) || occursIn pat cs

/-
Migration Controller model of `continuous_auto_migrate` in
`scripts/mcp-auto-execute.py`.  The loop state is the tuple of local
variables; one loop iteration is `migStep`.  The execution channel is
abstracted as one boolean per attempted batch (`true` = the MCP call
succeeded), consumed only when the fetched page is non-empty, exactly as the
script only reaches `execute_mcp_batch` for a non-empty page.  The
`lastSleep` field records the argument of the `time.sleep` call made in the
iteration, if any.
-/

structure MigState where
  offset : Nat
  batchSize : Nat
  batchCount : Nat
  totalProcessed : Nat
  consecutiveFailures : Nat
  stopped : Bool
  lastSleep : Option Nat
deriving DecidableEq

/-- Initial state of `continuous_auto_migrate`: offset 156, batch size 5000,
all counters zero. -/
def initMigState : MigState :=
  { offset := 156, batchSize := 5000, batchCount := 0, totalProcessed := 0,
    consecutiveFailures := 0, stopped := false, lastSleep := none }

/-- Model of `generate_and_execute_batch tbl` outcome: `(success, record_count)`.
An empty page yields `(False, 0)` (the script returns
`False, 0, "No more records"`); otherwise success is the channel outcome and
the count is the page length. -/
def generate_and_execute_batch (tbl : List Row) (exec : Bool)
    (start_offset batch_size : Nat) : Bool × Nat :=
  let rows := fetchPage_mcp tbl batch_size start_offset
  if rows.isEmpty then (false, 0) else (exec, rows.length)

/-- One iteration of the `while` loop of `continuous_auto_migrate`, given the
channel outcome `exec` for this attempt. -/
def migStep (tbl : List Row) (exec : Bool) (s : MigState) : MigState :=
  let res := generate_and_execute_batch tbl exec s.offset s.batchSize
  let bc := s.batchCount + 1
  if res.1 then
    { offset := s.offset + res.2,
      batchSize :=
        if bc % 5 = 0 ∧ s.batchSize < 10000 then min (s.batchSize + 1000) 10000
        else s.batchSize,
      batchCount := bc,
      totalProcessed := s.totalProcessed + res.2,
      consecutiveFailures := 0,
      stopped := s.stopped,
      lastSleep := some 1 }
  else
    if 3 ≤ s.consecutiveFailures + 1 then
      { s with batchCount := bc, consecutiveFailures := s.consecutiveFailures + 1,
               stopped := true, lastSleep := none }
    else
      { s with batchCount := bc, consecutiveFailures := s.consecutiveFailures + 1,
               batchSize := max (s.batchSize / 2) 1000, lastSleep := some 5 }

/-- One loop turn including the `while current_offset < target_total` guard
and the stop caused by an earlier `break`. -/
def migIter (tbl : List Row) (target : Nat) (exec : Bool) (s : MigState) : MigState :=
  if s.stopped ∨ target ≤ s.offset then s else migStep tbl exec s

/-- Run the controller over a finite list of channel outcomes. -/
def runMig (tbl : List Row) (target : Nat) : List Bool → MigState → MigState
  | [], s => s
  | e :: es, s => runMig tbl target es (migIter tbl target e s)

/-
Model of `continuous_turbo_migrate` in `scripts/auto-mcp-turbo.py`: fixed
batch size, empty page breaks the loop, a failed batch sleeps five seconds
and retries the same offset without any failure cap.
-/

structure TurboState where
  offset : Nat
  batchCount : Nat
  totalProcessed : Nat
  done : Bool
  lastSleep : Option Nat
deriving DecidableEq

/-- One iteration of the `while` loop of `continuous_turbo_migrate`. -/
def turboStep (tbl : List Row) (batchSize : Nat) (exec : Bool) (s : TurboState) : TurboState :=
  let page := fetchPage_mcp tbl batchSize s.offset
  let bc := s.batchCount + 1
  if page.isEmpty then
    { s with batchCount := bc, done := true, lastSleep := none }
  else if exec then
    { offset := s.offset + page.length, batchCount := bc,
      totalProcessed := s.totalProcessed + page.length, done := s.done,
      lastSleep := some 1 }
  else
    { s with batchCount := bc, lastSleep := some 5 }

/-
Model of `OptimizedMigrator.migrate_table` in `scripts/optimized-migrate.py`
(the same loop shape as `migrate_table` in `scripts/parallel-migrate.py`):
an empty page sets no failure state at all, it simply breaks the loop.
-/

structure OptState where
  offset : Nat
  batchCount : Nat
  done : Bool
deriving DecidableEq

/-- One iteration of the batch loop of `OptimizedMigrator.migrate_table`. -/
def optStep (tbl : List Row) (batchSize : Nat) (s : OptState) : OptState :=
  let page := fetchPage_noorder tbl batchSize s.offset
  let bc := s.batchCount + 1
  if page.isEmpty then { s with batchCount := bc, done := true }
  else { offset := s.offset + page.length, batchCount := bc, done := s.done }

/-
Order lemmas for the `ORDER BY id` model.
-/

theorem charToNat_inj {a b : Char} (h : a.toNat = b.toNat) : a = b :=
  Char.eq_of_val_eq (UInt32.toNat.inj h)

theorem strLeB_total (a b : List Char) : strLeB a b = true ∨ strLeB b a = true := by
  induction a generalizing b with
  | nil => left; rfl
  | cons x xs ih =>
    cases b with
    | nil => right; rfl
    | cons y ys =>
      simp only [strLeB]
      rcases Nat.lt_trichotomy x.toNat y.toNat with h | h | h
      · left; simp [h]
      · rcases ih ys with h2 | h2 <;> simp [h, h2, Nat.lt_irrefl]
      · right; simp [h, Nat.lt_asymm h]

theorem strLeB_trans {a b c : List Char} (hab : strLeB a b = true)
    (hbc : strLeB b c = true) : strLeB a c = true := by
  induction a generalizing b c with
  | nil => rfl
  | cons x xs ih =>
    cases b with
    | nil => simp [strLeB] at hab
    | cons y ys =>
      cases c with
      | nil => simp [strLeB] at hbc
      | cons z zs =>
        simp only [strLeB] at hab hbc ⊢
        by_cases hxy : x.toNat < y.toNat
        · by_cases hyz : y.toNat < z.toNat
          · rw [if_pos (show x.toNat < z.toNat by omega)]
          · by_cases hzy : z.toNat < y.toNat
            · rw [if_neg hyz, if_pos hzy] at hbc; exact absurd hbc (by simp)
            · rw [if_pos (show x.toNat < z.toNat by omega)]
        · by_cases hyx : y.toNat < x.toNat
          · rw [if_neg hxy, if_pos hyx] at hab; exact absurd hab (by simp)
          · rw [if_neg hxy, if_neg hyx] at hab
            by_cases hyz : y.toNat < z.toNat
            · rw [if_pos (show x.toNat < z.toNat by omega)]
            · by_cases hzy : z.toNat < y.toNat
              · rw [if_neg hyz, if_pos hzy] at hbc; exact absurd hbc (by simp)
              · rw [if_neg hyz, if_neg hzy] at hbc
                rw [if_neg (show ¬ x.toNat < z.toNat by omega),
                  if_neg (show ¬ z.toNat < x.toNat by omega)]
                exact ih hab hbc

theorem strLeB_antisymm {a b : List Char} (hab : strLeB a b = true)
    (hba : strLeB b a = true) : a = b := by
  induction a generalizing b with
  | nil =>
    cases b with
    | nil => rfl
    | cons y ys => simp [strLeB] at hba
  | cons x xs ih =>
    cases b with
    | nil => simp [strLeB] at hab
    | cons y ys =>
      simp only [strLeB] at hab hba
      rcases Nat.lt_trichotomy x.toNat y.toNat with h | h | h
      · simp [h, Nat.lt_asymm h, Nat.lt_irrefl] at hba
      · have hx : x = y := charToNat_inj h
        subst hx
        simp only [Nat.lt_irrefl, if_neg, ite_false] at hab hba
        exact congrArg (x :: ·) (ih hab hba)
      · simp [h, Nat.lt_asymm h, Nat.lt_irrefl] at hab

theorem rowLe_total (a b : Row) : rowLe a b = true ∨ rowLe b a = true := by
  unfold rowLe idLeB
  cases a.id with
  | none => left; rfl
  | some x =>
    cases b.id with
    | none => right; rfl
    | some y => exact strLeB_total x y

theorem rowLe_trans {a b c : Row} (hab : rowLe a b = true) (hbc : rowLe b c = true) :
    rowLe a c = true := by
  unfold rowLe idLeB at *
  cases ha : a.id with
  | none => rfl
  | some x =>
    cases hb : b.id with
    | none => simp [ha, hb] at hab
    | some y =>
      cases hc : c.id with
      | none => simp [hb, hc] at hbc
      | some z =>
        simp only [ha, hb, hc] at hab hbc ⊢
        exact strLeB_trans hab hbc

theorem rowLe_antisymm {a b : Row} (hab : rowLe a b = true) (hba : rowLe b a = true) :
    a.id = b.id := by
  unfold rowLe idLeB at *
  cases ha : a.id with
  | none =>
    cases hb : b.id with
    | none => rfl
    | some y => simp [ha, hb] at hba
  | some x =>
    cases hb : b.id with
    | none => simp [ha, hb] at hab
    | some y =>
      simp only [ha, hb] at hab hba
      exact congrArg some (strLeB_antisymm hab hba)

theorem insertById_perm (r : Row) (l : List Row) : (insertById r l).Perm (r :: l) := by
  induction l with
  | nil => exact List.Perm.refl _
  | cons x xs ih =>
    simp only [insertById]
    by_cases h : rowLe r x
    · rw [if_pos h]
    · rw [if_neg h]
      exact (ih.cons x).trans (List.Perm.swap r x xs)

theorem sortById_perm (l : List Row) : (sortById l).Perm l := by
  induction l with
  | nil => exact List.Perm.refl _
  | cons x xs ih => exact (insertById_perm x (sortById xs)).trans (ih.cons x)

theorem insertById_sorted {r : Row} {l : List Row}
    (h : l.Pairwise (fun a b => rowLe a b = true)) :
    (insertById r l).Pairwise (fun a b => rowLe a b = true) := by
  induction l with
  | nil => simp [insertById]
  | cons x xs ih =>
    rcases List.pairwise_cons.1 h with ⟨hx, hxs⟩
    by_cases hr : rowLe r x
    · simp only [insertById, if_pos hr]
      refine List.Pairwise.cons ?_ h
      intro b hb
      rcases List.mem_cons.1 hb with rfl | hb
      · exact hr
      · exact rowLe_trans hr (hx b hb)
    · simp only [insertById, if_neg hr]
      refine List.Pairwise.cons ?_ (ih hxs)
      intro b hb
      rcases List.mem_cons.1 ((insertById_perm r xs).mem_iff.1 hb) with rfl | hb
      · rcases rowLe_total b x with htot | htot
        · exact absurd htot hr
        · exact htot
      · exact hx b hb

theorem sortById_sorted (l : List Row) :
    (sortById l).Pairwise (fun a b => rowLe a b = true) := by
  induction l with
  | nil => exact List.Pairwise.nil
  | cons x xs ih => exact insertById_sorted ih

theorem sortById_eq_of_perm {t1 t2 : List Row} (hperm : t1.Perm t2)
    (hids : t1.Pairwise (fun a b => a.id ≠ b.id)) : sortById t1 = sortById t2 := by
  have hsymm : ∀ {x y : Row}, x.id ≠ y.id → y.id ≠ x.id := fun h => Ne.symm h
  have hids2 : t2.Pairwise (fun a b => a.id ≠ b.id) :=
    (List.Perm.pairwise_iff hsymm hperm).mp hids
  have hne1 : (sortById t1).Pairwise (fun a b => a.id ≠ b.id) :=
    (List.Perm.pairwise_iff hsymm (sortById_perm t1)).mpr hids
  have hne2 : (sortById t2).Pairwise (fun a b => a.id ≠ b.id) :=
    (List.Perm.pairwise_iff hsymm (sortById_perm t2)).mpr hids2
  have p1 := (sortById_sorted t1).and hne1
  have p2 := (sortById_sorted t2).and hne2
  haveI : IsAntisymm Row (fun a b => rowLe a b = true ∧ a.id ≠ b.id) :=
    ⟨fun a b h1 h2 => absurd (rowLe_antisymm h1.1 h2.1) h1.2⟩
  exact List.eq_of_perm_of_sorted
    ((sortById_perm t1).trans (hperm.trans (sortById_perm t2).symm)) p1 p2

/-
Concrete rows used by witnesses and counterexamples.
-/

/-- A row whose id is the single letter a; all other columns NULL. -/
def rowA : Row :=
  { id := some ['a'], city := none, dataset := none, watermark := none,
    payload := none, inserted_at := none }

/-- A row whose id is the single letter b; all other columns NULL. -/
def rowB : Row :=
  { id := some ['b'], city := none, dataset := none, watermark := none,
    payload := none, inserted_at := none }

/-- The controller state at offset 0 with the initial batch size 5000. -/
def migState0 : MigState :=
  { offset := 0, batchSize := 5000, batchCount := 0, totalProcessed := 0,
    consecutiveFailures := 0, stopped := false, lastSleep := none }

/-- C1: in `continuous_auto_migrate` and `continuous_turbo_migrate`, a failed
batch leaves the offset unchanged (the next iteration fetches the same
offset, since every iteration fetches at the current offset), and the offset
advances, by exactly the record count of the page, only when the batch
execution reported success. -/
theorem offset_advances_only_on_success (tbl : List Row) (exec : Bool) (s : MigState)
    (bs : Nat) (t : TurboState) :
    ((migStep tbl exec s).offset =
      if (generate_and_execute_batch tbl exec s.offset s.batchSize).1 then
        s.offset + (generate_and_execute_batch tbl exec s.offset s.batchSize).2
      else s.offset)
    ∧ ((generate_and_execute_batch tbl exec s.offset s.batchSize).2 =
      if (fetchPage_mcp tbl s.batchSize s.offset).isEmpty then 0
      else (fetchPage_mcp tbl s.batchSize s.offset).length)
    ∧ ((turboStep tbl bs exec t).offset =
      if (fetchPage_mcp tbl bs t.offset).isEmpty then t.offset
      else if exec then t.offset + (fetchPage_mcp tbl bs t.offset).length else t.offset) := by
  refine ⟨?_, ?_, ?_⟩
  · simp only [migStep]
    split
    · rfl
    · split <;> rfl
  · cases h : (fetchPage_mcp tbl s.batchSize s.offset).isEmpty <;>
      simp [generate_and_execute_batch, h]
  · cases h : (fetchPage_mcp tbl bs t.offset).isEmpty <;> cases exec <;>
      simp [turboStep, h]

/-- C2 counterexample: at the concrete one-row page `[rowA]`, neither batch
builder emits any `ON CONFLICT` clause, and the envelope of
`generate_and_execute_batch` does not even start with `BEGIN` — so the claim
that every envelope has the form
`BEGIN; INSERT ... ON CONFLICT (key) DO NOTHING; COMMIT;` fails on the code. -/
theorem envelope_conflict_clause_cex :
    occursIn ("ON CONFLICT".data) (mcp_insert_sql [rowA]) = false
    ∧ occursIn ("ON CONFLICT".data) (optimized_insert_sql [rowA]) = false
    ∧ ("BEGIN".data).isPrefixOf (mcp_insert_sql [rowA]) = false
    ∧ mcp_envelope [rowA] = some (mcp_insert_sql [rowA])
    ∧ optimized_envelope [rowA] = some (optimized_insert_sql [rowA]) :=
  ⟨rfl, rfl, rfl, rfl, rfl⟩

/-- C2 amended: for every non-empty page, the envelope of
`OptimizedMigrator.generate_batch_insert` is the comma-joined multi-row
insert framed by `BEGIN;` and `COMMIT;` but with no conflict clause, and the
envelope of `generate_and_execute_batch` is a bare
`INSERT INTO raw (...) VALUES ...;` with neither transaction markers nor
conflict handling. -/
theorem envelope_shape (rows : List Row) (h : rows ≠ []) :
    optimized_envelope rows =
      some ('\n' :: ("BEGIN;\n".data ++
        "INSERT INTO raw (id, city, dataset, watermark, payload, inserted_at) VALUES\n".data ++
        joinComma (rows.map optRowTuple) ++ ";\nCOMMIT;".data))
    ∧ mcp_envelope rows =
      some ("INSERT INTO raw (id, city, dataset, watermark, payload, inserted_at) VALUES ".data ++
        joinComma (rows.map mcpRowTuple) ++ [';']) := by
  have h2 : rows.isEmpty = false := by
    cases rows with
    | nil => exact absurd rfl h
    | cons x xs => rfl
  exact ⟨by simp [optimized_envelope, h2, optimized_insert_sql],
    by simp [mcp_envelope, h2, mcp_insert_sql]⟩

theorem envelope_shape_witness :
    optimized_envelope [rowA] =
      some ('\n' :: ("BEGIN;\n".data ++
        "INSERT INTO raw (id, city, dataset, watermark, payload, inserted_at) VALUES\n".data ++
        joinComma ([rowA].map optRowTuple) ++ ";\nCOMMIT;".data))
    ∧ mcp_envelope [rowA] =
      some ("INSERT INTO raw (id, city, dataset, watermark, payload, inserted_at) VALUES ".data ++
        joinComma ([rowA].map mcpRowTuple) ++ [';']) :=
  envelope_shape [rowA] (by decide)

/-- C3 counterexample: on an exhausted source (empty table) the controller
of `continuous_auto_migrate` treats the empty page as a failed batch: the
consecutive-failure counter is incremented and the five-second retry path is
taken, instead of a clean transition to a done state. -/
theorem empty_page_failure_cex :
    fetchPage_mcp [] 5000 0 = []
    ∧ (migStep [] true migState0).consecutiveFailures = 1
    ∧ (migStep [] true migState0).lastSleep = some 5
    ∧ (migStep [] true migState0).stopped = false :=
  ⟨rfl, rfl, rfl, rfl⟩

/-- C3 amended: the Row Source model returns an empty page, never an error,
at or past the end of the table, and `migrate_table` (optimized and parallel
variants) and `continuous_turbo_migrate` do stop cleanly on it; but
`continuous_auto_migrate` reports the empty page as a failed batch
(`False, 0, No more records`), increments its consecutive-failure counter
and leaves the offset unchanged, so there it terminates through the failure
threshold rather than through a done transition. -/
theorem empty_page_behavior :
    (∀ (tbl : List Row) (b off : Nat), tbl.length ≤ off → fetchPage_mcp tbl b off = [])
    ∧ (∀ (tbl : List Row) (exec : Bool) (s : MigState),
        fetchPage_mcp tbl s.batchSize s.offset = [] →
        (migStep tbl exec s).consecutiveFailures = s.consecutiveFailures + 1
        ∧ (migStep tbl exec s).offset = s.offset)
    ∧ (∀ (tbl : List Row) (b : Nat) (s : OptState),
        fetchPage_noorder tbl b s.offset = [] →
        (optStep tbl b s).done = true ∧ (optStep tbl b s).offset = s.offset)
    ∧ (∀ (tbl : List Row) (b : Nat) (exec : Bool) (t : TurboState),
        fetchPage_mcp tbl b t.offset = [] →
        (turboStep tbl b exec t).done = true ∧ (turboStep tbl b exec t).offset = t.offset) := by
  refine ⟨?_, ?_, ?_, ?_⟩
  · intro tbl b off hoff
    unfold fetchPage_mcp
    rw [List.drop_eq_nil_of_le (by rw [(sortById_perm tbl).length_eq]; exact hoff)]
    exact List.take_nil
  · intro tbl exec s h
    constructor <;> simp [migStep, generate_and_execute_batch, h] <;> split <;> rfl
  · intro tbl b s h
    constructor <;> simp [optStep, h]
  · intro tbl b exec t h
    constructor <;> simp [turboStep, h]

theorem empty_page_behavior_witness :
    fetchPage_mcp [rowA] 5 1 = []
    ∧ (migStep [] true migState0).consecutiveFailures = 0 + 1
    ∧ (optStep [] 5 { offset := 0, batchCount := 0, done := false }).done = true
    ∧ (turboStep [] 5 true
        { offset := 0, batchCount := 0, totalProcessed := 0, done := false,
          lastSleep := none }).done = true :=
  ⟨empty_page_behavior.1 [rowA] 5 1 (by decide),
    (empty_page_behavior.2.1 [] true migState0 rfl).1,
    (empty_page_behavior.2.2.1 [] 5 { offset := 0, batchCount := 0, done := false } rfl).1,
    (empty_page_behavior.2.2.2 [] 5 true
      { offset := 0, batchCount := 0, totalProcessed := 0, done := false,
        lastSleep := none } rfl).1⟩

/-- C4 counterexample: the fetch of `migrate_raw_batch`
(`scripts/auto-migrate.py`) issues no `ORDER BY`, so its page contents
depend on the storage order of the table: the same logical source stored in
two different orders yields two different pages.  The fetch of
`generate_and_execute_batch` (`ORDER BY id`) yields the same page for both. -/
theorem paging_order_cex :
    fetchPage_noorder [rowA, rowB] 1 0 ≠ fetchPage_noorder [rowB, rowA] 1 0
    ∧ fetchPage_mcp [rowA, rowB] 1 0 = fetchPage_mcp [rowB, rowA] 1 0 :=
  ⟨by decide, by decide⟩

/-- C4 amended: the `ORDER BY id` page fetch of `generate_and_execute_batch`
is deterministic: whenever the `id` column is duplicate-free, its result is
a function of the set of rows alone, independent of the storage order, so
two calls with identical arguments against an unmodified source return
identical record sequences.  The no-`ORDER BY` fetch of `migrate_raw_batch`
has no such guarantee (see the counterexample). -/
theorem paging_deterministic (tbl1 tbl2 : List Row) (limit offset : Nat)
    (hperm : tbl1.Perm tbl2)
    (hids : tbl1.Pairwise (fun a b => a.id ≠ b.id)) :
    fetchPage_mcp tbl1 limit offset = fetchPage_mcp tbl2 limit offset := by
  unfold fetchPage_mcp
  rw [sortById_eq_of_perm hperm hids]

theorem paging_deterministic_witness :
    fetchPage_mcp [rowB, rowA] 2 0 = fetchPage_mcp [rowA, rowB] 2 0 :=
  paging_deterministic [rowB, rowA] [rowA, rowB] 2 0 (by decide) (by decide)

/-- C5: for every stored text that does not parse as JSON, `format_json_field`
returns exactly the quoted empty-object literal and no error is raised (the
function is total). -/
theorem format_json_field_malformed (s : List Char) (h : json_loads s = none) :
    format_json_field (some s) = [sqch, '\x7b', '\x7d', sqch] := by
  simp only [format_json_field]
  rw [h]

theorem format_json_field_malformed_witness :
    json_loads ("not json".data) = none
    ∧ format_json_field (some ("not json".data)) = [sqch, '\x7b', '\x7d', sqch] :=
  ⟨rfl, format_json_field_malformed ("not json".data) rfl⟩

/-- C6: `escape_sql_string` wraps its input in single quotes after doubling
every embedded single quote and touching nothing else: decoding the literal
recovers the input exactly, the quote count doubles, and the subsequence of
non-quote characters is unchanged. -/
theorem escape_sql_string_roundtrip (s : List Char) :
    decodeSqlLiteral (escape_sql_string (some s)) = some s
    ∧ (pyReplaceQuote s).count sqch = 2 * s.count sqch
    ∧ (pyReplaceQuote s).filter (fun c => c != sqch) = s.filter (fun c => c != sqch) :=
  ⟨decode_escape_sql_string s, pyReplaceQuote_count s, pyReplaceQuote_filter s⟩

theorem migStep_batchSize_bounds (tbl : List Row) (exec : Bool) (s : MigState)
    (h1 : 1000 ≤ s.batchSize) (h2 : s.batchSize ≤ 10000) :
    1000 ≤ (migStep tbl exec s).batchSize ∧ (migStep tbl exec s).batchSize ≤ 10000 := by
  simp only [migStep]
  split
  · dsimp only
    split <;> omega
  · split <;> (dsimp only; omega)

theorem migIter_batchSize_bounds (tbl : List Row) (target : Nat) (exec : Bool)
    (s : MigState) (h1 : 1000 ≤ s.batchSize) (h2 : s.batchSize ≤ 10000) :
    1000 ≤ (migIter tbl target exec s).batchSize
    ∧ (migIter tbl target exec s).batchSize ≤ 10000 := by
  unfold migIter
  split
  · exact ⟨h1, h2⟩
  · exact migStep_batchSize_bounds tbl exec s h1 h2

/-- C7: across any finite sequence of batch outcomes, the batch size of
`continuous_auto_migrate` stays within the configured floor 1000 and
ceiling 10000, provided it starts within them (the script starts at 5000). -/
theorem batchSize_bounded (tbl : List Row) (target : Nat) (outcomes : List Bool)
    (s : MigState) (h1 : 1000 ≤ s.batchSize) (h2 : s.batchSize ≤ 10000) :
    1000 ≤ (runMig tbl target outcomes s).batchSize
    ∧ (runMig tbl target outcomes s).batchSize ≤ 10000 := by
  induction outcomes generalizing s with
  | nil => exact ⟨h1, h2⟩
  | cons e es ih =>
    have hb := migIter_batchSize_bounds tbl target e s h1 h2
    exact ih (migIter tbl target e s) hb.1 hb.2

theorem batchSize_bounded_witness :
    1000 ≤ (runMig [rowA] 1000 [false, false, true] initMigState).batchSize
    ∧ (runMig [rowA] 1000 [false, false, true] initMigState).batchSize ≤ 10000 :=
  batchSize_bounded [rowA] 1000 [false, false, true] initMigState (by decide) (by decide)

/-- C8 counterexample: starting from a fresh state, the third consecutive
failure already stops the migration with the counter at exactly 3 — the
controller stops when `consecutive_failures` reaches 3 (`>= 3`), not when it
exceeds 3 as the claim states (under the claim, a third failure would leave
the controller running). -/
theorem failure_threshold_cex :
    (runMig [rowA] 100 [false, false] migState0).stopped = false
    ∧ (runMig [rowA] 100 [false, false, false] migState0).stopped = true
    ∧ (runMig [rowA] 100 [false, false, false] migState0).consecutiveFailures = 3 :=
  ⟨rfl, rfl, rfl⟩

/-- C8 amended: the counter increments by one on each failed batch and
resets to 0 on any successful batch, and (from a running state) the
controller stops exactly when the counter reaches the threshold 3
(`consecutive_failures >= 3`); two failures followed by a success leave the
migration running with the counter reset, the offset advanced by the page
length, and the batch size halved twice. -/
theorem consecutiveFailures_dynamics (tbl : List Row) (exec : Bool) (s : MigState) :
    ((migStep tbl exec s).consecutiveFailures =
      if (generate_and_execute_batch tbl exec s.offset s.batchSize).1 then 0
      else s.consecutiveFailures + 1)
    ∧ ((migStep tbl exec s).stopped =
      if (generate_and_execute_batch tbl exec s.offset s.batchSize).1 then s.stopped
      else if 3 ≤ s.consecutiveFailures + 1 then true else s.stopped)
    ∧ (runMig [rowA] 100 [false, false, true] migState0).stopped = false
    ∧ (runMig [rowA] 100 [false, false, true] migState0).consecutiveFailures = 0
    ∧ (runMig [rowA] 100 [false, false, true] migState0).offset = 1
    ∧ (runMig [rowA] 100 [false, false, true] migState0).batchSize = 1250 := by
  refine ⟨?_, ?_, rfl, rfl, rfl, rfl⟩ <;>
    (simp only [migStep]
     split
     · rfl
     · split <;> rfl)

/-- C9 counterexample: the retry delay of `continuous_auto_migrate` is the
constant `time.sleep(5)`: after a run of one consecutive failure and after a
run of two, the slept delay is the same 5 seconds, so the delay does not
grow exponentially with the failure run. -/
theorem backoff_constant_cex :
    (runMig [rowA] 100 [false] migState0).lastSleep = some 5
    ∧ (runMig [rowA] 100 [false, false] migState0).lastSleep = some 5
    ∧ (runMig [rowA] 100 [false] migState0).consecutiveFailures = 1
    ∧ (runMig [rowA] 100 [false, false] migState0).consecutiveFailures = 2 :=
  ⟨rfl, rfl, rfl, rfl⟩

/-- C9 amended: on a failed batch that does not hit the stop threshold,
`continuous_auto_migrate` halves the batch size down to the floor 1000,
sleeps a fixed 5 seconds and retries the same offset; the turbo variant
(`continuous_turbo_migrate`) also sleeps the fixed 5 seconds and retries the
same offset (without touching its batch size).  The delay is constant, not
exponential. -/
theorem failure_backoff :
    (∀ (tbl : List Row) (exec : Bool) (s : MigState),
      (generate_and_execute_batch tbl exec s.offset s.batchSize).1 = false →
      s.consecutiveFailures + 1 < 3 →
      (migStep tbl exec s).batchSize = max (s.batchSize / 2) 1000
      ∧ (migStep tbl exec s).lastSleep = some 5
      ∧ (migStep tbl exec s).offset = s.offset)
    ∧ (∀ (tbl : List Row) (b : Nat) (t : TurboState),
      (fetchPage_mcp tbl b t.offset).isEmpty = false →
      (turboStep tbl b false t).lastSleep = some 5
      ∧ (turboStep tbl b false t).offset = t.offset) := by
  constructor
  · intro tbl exec s hfail hcf
    simp only [migStep, hfail]
    rw [if_neg (by simp), if_neg (show ¬ 3 ≤ s.consecutiveFailures + 1 by omega)]
    exact ⟨rfl, rfl, rfl⟩
  · intro tbl b t h
    constructor <;> simp [turboStep, h]

theorem failure_backoff_witness :
    (migStep [rowA] false migState0).batchSize = max (5000 / 2) 1000
    ∧ (turboStep [rowA] 10 false
        { offset := 0, batchCount := 0, totalProcessed := 0, done := false,
          lastSleep := none }).lastSleep = some 5 :=
  ⟨(failure_backoff.1 [rowA] false migState0 rfl (by decide)).1,
    (failure_backoff.2 [rowA] 10
      { offset := 0, batchCount := 0, totalProcessed := 0, done := false,
        lastSleep := none } rfl).1⟩

/-- C10: for the stored text `null` (valid JSON encoding of null),
`format_json_field` returns the quoted literal tagged with the jsonb cast,
not the sink NULL literal; the NULL literal arises only for an absent field:
every present field produces output starting with a single quote, so it is
never the NULL literal. -/
theorem json_null_distinct_from_absent :
    format_json_field (some ("null".data)) =
      sqch :: ("null".data ++ sqch :: ':' :: ':' :: "jsonb".data)
    ∧ format_json_field none = "NULL".data
    ∧ (∀ s : List Char, (format_json_field (some s)).head? = some sqch)
    ∧ (∀ s : List Char, format_json_field (some s) ≠ "NULL".data) := by
  refine ⟨rfl, rfl, ?_, ?_⟩
  · intro s
    simp only [format_json_field]
    cases hj : json_loads s <;> simp [hj]
  · intro s h
    have h2 : (format_json_field (some s)).head? = some sqch := by
      simp only [format_json_field]
      cases hj : json_loads s <;> simp [hj]
    rw [h] at h2
    exact absurd h2 (by decide)
